/-
Verification of the OrderSheet scanner's core logic: the extraction
normalization heuristic, the review-state edit rule, and the export sinks
(webhook upload and clipboard TSV), shallowly embedded from the TypeScript
source (`services/geminiService.ts` and `App.tsx`).

JavaScript numbers are modelled as rationals (ℚ); all the values the
program manipulates (handwritten counts, prices) have exact decimal
representations, and none of the claims depend on float rounding.
-/
import Mathlib

namespace OrderSheet

/-! ### Rendering of numbers as strings

Embeds the JavaScript number-to-string conversion used by template
literals (`${i.price}`) and by `JSON.stringify` for numeric fields: the
integer part in decimal, then a fractional part only when nonzero.
`fracDigits` carries fuel; every value the program produces has a finite
decimal expansion, and thirty digits is far beyond a double's precision. -/

/-- Decimal digits of a fractional part `q` (intended `0 ≤ q < 1`), with fuel. -/
def fracDigits : Nat → ℚ → String
  | 0, _ => ""
  | n + 1, q =>
    if q = 0 then ""
    else
      let d : Int := Rat.floor (q * 10)
      toString d ++ fracDigits n (q * 10 - (d : ℚ))

/-- Decimal string of a nonnegative rational. -/
def nonnegToString (q : ℚ) : String :=
  let i : Int := Rat.floor q
  let f : ℚ := q - (i : ℚ)
  if f = 0 then toString i else toString i ++ "." ++ fracDigits 30 f

/-- JavaScript `String(n)` / `${n}` for the finite decimals this program handles. -/
def numToString (q : ℚ) : String :=
  if q < 0 then "-" ++ nonnegToString (-q) else nonnegToString q

/-! ### Data model (`types.ts`) -/

/-- Structure `InvoiceItem` from `types.ts`. -/
structure InvoiceItem where
  id : String
  description : String
  vendor : String
  inStock : ℚ
  par : ℚ
  order : ℚ
  price : ℚ
deriving DecidableEq

/-- Status field of a history record. -/
inductive RecordStatus where
  | Draft
  | Uploaded
deriving DecidableEq

/-- Structure `InvoiceRecord` from `types.ts`. -/
structure InvoiceRecord where
  id : String
  date : String
  items : List InvoiceItem
  totalItems : Nat
  status : RecordStatus
deriving DecidableEq

/-! ### Model Gateway (`services/geminiService.ts`) -/

/-- One raw row as returned by the model against `INVOICE_SCHEMA`:
only `description` is required; absent numeric fields are `none`
(`Number(undefined) || 0` coerces them to `0`). -/
structure RawItem where
  description : Option String
  column1_inStock : Option ℚ
  column2_par : Option ℚ
  column3_order : Option ℚ
  column4_price : Option ℚ
deriving DecidableEq

/-- The per-row normalization inside `extractInvoiceData`'s `itemsList.map`:
par resolution (trust handwriting, else back-derive from stock+order, else
heuristic default) followed by order resolution (trust handwriting, else
`max(0, par - inStock)` when `par > 0`). -/
def normalizeRow (vendorName : String) (id : String) (item : RawItem) : InvoiceItem :=
  let inStock : ℚ := item.column1_inStock.getD 0
  let extractedOrder : ℚ := item.column3_order.getD 0
  let par0 : ℚ := item.column2_par.getD 0
  let price : ℚ := item.column4_price.getD 0
  let par : ℚ :=
    if par0 = 0 then
      if extractedOrder > 0 then inStock + extractedOrder
      else if inStock > 0 then inStock + 5 else 10
    else par0
  let finalOrder : ℚ :=
    if extractedOrder = 0 ∧ par > 0 then max 0 (par - inStock) else extractedOrder
  let descr : String := item.description.getD ""
  { id := id
    description := if descr = "" then "Unknown Item" else descr
    vendor := vendorName
    inStock := inStock
    par := par
    order := finalOrder
    price := price }

/-- Constant error message thrown by `extractInvoiceData`'s catch block. -/
def extractFailMessage : String :=
  "Failed to extract data from the invoice. Please try again."

/-- Shape of the JSON value obtained from the model's response text, as far
as `extractInvoiceData` inspects it: a bare array, an object (with optional
`vendorName` and `items` properties), a primitive (property access yields
`undefined`), or `null` (property access throws). -/
inductive JsonShape where
  | jarr (items : List RawItem)
  | jobj (vendorName : Option String) (items : Option (List RawItem))
  | jprim
  | jnull
deriving DecidableEq

/-- Outcome of `JSON.parse(text)`: an exception, or a value of some shape. -/
inductive ParseOutcome where
  | malformed
  | parsed (v : JsonShape)
deriving DecidableEq

/-- Outcome of the `generateContent` call: an exception, or a response whose
`text` field may be absent; when text is present, its parse outcome. -/
inductive ModelOutcome where
  | callExn
  | response (text : Option String) (parse : ParseOutcome)
deriving DecidableEq

/-- The body of `extractInvoiceData`: the falsy guard `if (!text) return []`
yields the empty list when `response.text` is absent or the empty string
(parsing never runs then); otherwise parse it, accept a bare array or an
object's `items` list (empty list for other shapes), normalize each row
with the batch vendor name, and turn every exception into the one
`extractFailMessage` error. `idGen` stands in for the random per-row id
generation. -/
def extractInvoiceData (idGen : Nat → String) (o : ModelOutcome) :
    Except String (List InvoiceItem) :=
  match o with
  | .callExn => .error extractFailMessage
  | .response none _ => .ok []
  | .response (some t) p =>
    if t = "" then .ok []
    else
      match p with
      | .malformed => .error extractFailMessage
      | .parsed v =>
        match v with
        | .jnull => .error extractFailMessage
        | .jarr items =>
            .ok (items.mapIdx fun n it => normalizeRow "" (idGen n) it)
        | .jobj vn its =>
            let vendorName := match vn with
              | some s => if s = "" then "" else s.trim
              | none => ""
            .ok ((its.getD []).mapIdx fun n it => normalizeRow vendorName (idGen n) it)
        | .jprim => .ok []

/-! ### Review State (`App.tsx`: `updateItem`) -/

/-- An edit request: which field of an `InvoiceItem` is set, and to what. -/
inductive FieldVal where
  | inStock (v : ℚ)
  | par (v : ℚ)
  | order (v : ℚ)
  | price (v : ℚ)
  | description (s : String)
  | vendor (s : String)
deriving DecidableEq

/-- The per-item body of `updateItem`: spread the new field value over the
item, then, when the edited field is `inStock` or `par`, recompute `order`
as `max(0, par - inStock)` from the new value of the edited field and the
stored value of the other. -/
def updateOne (fv : FieldVal) (item : InvoiceItem) : InvoiceItem :=
  match fv with
  | .inStock v => { item with inStock := v, order := max 0 (item.par - v) }
  | .par v => { item with par := v, order := max 0 (v - item.inStock) }
  | .order v => { item with order := v }
  | .price v => { item with price := v }
  | .description s => { item with description := s }
  | .vendor s => { item with vendor := s }

/-- Function `updateItem` from `App.tsx`: map over the collection, leaving
every item whose id differs untouched. -/
def updateItem (items : List InvoiceItem) (id : String) (fv : FieldVal) :
    List InvoiceItem :=
  items.map fun item => if item.id ≠ id then item else updateOne fv item

/-! ### Export Sink (`App.tsx`: `uploadToScript`, `getSortedExportData`,
`copyToClipboard`) -/

/-- The case-insensitive description ordering used by every sort in the
app: comparator `a.description.toLowerCase().localeCompare(b.description.toLowerCase()) ≤ 0`. -/
def ciRel (a b : InvoiceItem) : Prop :=
  a.description.toLower ≤ b.description.toLower

instance : DecidableRel ciRel := fun a b =>
  inferInstanceAs (Decidable (a.description.toLower ≤ b.description.toLower))

instance : IsTotal InvoiceItem ciRel :=
  ⟨fun a b => le_total a.description.toLower b.description.toLower⟩

instance : IsTrans InvoiceItem ciRel :=
  ⟨fun _ _ _ hab hbc => le_trans hab hbc⟩

/-- Sorting `[...items].sort((a, b) => a.description.toLowerCase()
.localeCompare(b.description.toLowerCase()))`: a stable sort of a copy by
the case-insensitive description order (JavaScript's sort is stable). -/
def sortByDescription (items : List InvoiceItem) : List InvoiceItem :=
  items.insertionSort ciRel

/-- The payload row shape built by `getSortedExportData` and by
`uploadToScript`'s `payload` map: the six data fields without the id. -/
structure ExportRow where
  inStock : ℚ
  par : ℚ
  order : ℚ
  description : String
  vendor : String
  price : ℚ
deriving DecidableEq

/-- The field projection `i => (\x7b inStock: i.inStock, ... \x7d)`. -/
def toExportRow (i : InvoiceItem) : ExportRow :=
  { inStock := i.inStock
    par := i.par
    order := i.order
    description := i.description
    vendor := i.vendor
    price := i.price }

/-- Function `getSortedExportData` from `App.tsx`. -/
def getSortedExportData (items : List InvoiceItem) : List ExportRow :=
  (sortByDescription items).map toExportRow

/-- One TSV line of `copyToClipboard`:
vendor, description, inStock, par, order, price joined by tabs. -/
def tsvLine (i : ExportRow) : String :=
  i.vendor ++ "\t" ++ i.description ++ "\t" ++ numToString i.inStock ++ "\t" ++
    numToString i.par ++ "\t" ++ numToString i.order ++ "\t" ++ numToString i.price

/-- The text `copyToClipboard` writes to the clipboard: one line per sorted
export row, joined by newlines (no header). -/
def copyTsvText (items : List InvoiceItem) : String :=
  String.intercalate "\n" ((getSortedExportData items).map tsvLine)

/-! #### JSON body of the webhook POST -/

/-- Hexadecimal digit for JSON control-character escapes. -/
def hexDigit (n : Nat) : Char :=
  if n < 10 then Char.ofNat (48 + n) else Char.ofNat (87 + n)

/-- Escape of one character inside a JSON string literal, as
`JSON.stringify` produces it. -/
def jsonEscapeChar (c : Char) : String :=
  if c = '"' then "\\\""
  else if c = '\\' then "\\\\"
  else if c = '\n' then "\\n"
  else if c = '\t' then "\\t"
  else if c = '\r' then "\\r"
  else if c = '\x08' then "\\b"
  else if c = '\x0c' then "\\f"
  else if c.toNat < 32 then
    "\\u00" ++ String.singleton (hexDigit (c.toNat / 16)) ++
      String.singleton (hexDigit (c.toNat % 16))
  else String.singleton c

/-- JSON string literal for `s`, as `JSON.stringify` produces it. -/
def jsonStr (s : String) : String :=
  "\"" ++ String.join (s.data.map jsonEscapeChar) ++ "\""

/-- JSON object for one payload row, key order as built in `uploadToScript`. -/
def exportRowJson (r : ExportRow) : String :=
  "\x7b\"inStock\":" ++ numToString r.inStock ++
    ",\"par\":" ++ numToString r.par ++
    ",\"order\":" ++ numToString r.order ++
    ",\"description\":" ++ jsonStr r.description ++
    ",\"vendor\":" ++ jsonStr r.vendor ++
    ",\"price\":" ++ numToString r.price ++ "\x7d"

/-- JSON body `JSON.stringify(\x7b items: payload \x7d)` for a payload list. -/
def uploadBodyJson (rows : List ExportRow) : String :=
  "\x7b\"items\":[" ++ String.intercalate "," (rows.map exportRowJson) ++ "]\x7d"

/-- The body `uploadToScript` POSTs for a given item collection: it sorts
its own copy and projects the payload rows. -/
def uploadBodySent (dataToUpload : List InvoiceItem) : String :=
  uploadBodyJson ((sortByDescription dataToUpload).map toExportRow)

/-! #### Webhook response classification -/

/-- Outcome of the `fetch` + `response.text()` round trip: a body text, or
a transport exception. -/
inductive FetchResult where
  | ok (body : String)
  | exn
deriving DecidableEq

/-- Embedding of `String.prototype.startsWith` on character lists. -/
def strStartsWith : List Char → List Char → Bool
  | [], _ => true
  | _ :: _, [] => false
  | a :: p, b :: s => a == b && strStartsWith p s

/-- Search for pattern `p` at every position of `s`. -/
def strIncludesAux (p : List Char) : List Char → Bool
  | [] => p.isEmpty
  | b :: t => strStartsWith p (b :: t) || strIncludesAux p t

/-- Embedding of JavaScript `s.includes(pat)`: substring containment. -/
def strIncludes (s pat : String) : Bool :=
  strIncludesAux pat.data s.data

/-- Return value of `uploadToScript`: `false` without a script URL; with
one, `true` exactly when the response body text contains `"Success"`, and
`false` on any transport exception. -/
def uploadToScript (currentScriptUrl : String) (r : FetchResult) : Bool :=
  if currentScriptUrl = "" then false
  else
    match r with
    | .ok text => if strIncludes text "Success" then true else false
    | .exn => false

/-! ### App state and `handleManualExport` (`App.tsx`) -/

/-- The view enumeration `AppView` from `types.ts`. -/
inductive AppView where
  | DASHBOARD
  | SCAN
  | REVIEW
  | HISTORY
  | SETTINGS
deriving DecidableEq

/-- The pieces of React state that `handleManualExport` can touch. -/
structure AppState where
  items : List InvoiceItem
  history : List InvoiceRecord
  view : AppView
  toast : Option String
  showExportModal : Bool
  isProcessing : Bool
deriving DecidableEq

/-- The clipboard fallback step of `handleManualExport`: `copyToClipboard`
sets a toast depending on clipboard permission, then the export modal is
shown. The clipboard text itself is `copyTsvText s.items`. -/
def clipboardStep (clipOk : Bool) (s : AppState) : AppState :=
  let s' :=
    if clipOk then { s with toast := some "Data copied! (Sorted by name)" }
    else { s with toast := some "Clipboard access denied. Please allow permissions." }
  { s' with showExportModal := true }

/-- Function `handleManualExport` from `App.tsx` as a state transformer.
`newId`/`newDate` stand for `Date.now()`/`new Date().toISOString()`;
`fetchR` is the webhook transport outcome and `clipOk` the clipboard
permission outcome. It always prepends one `Uploaded` record snapshotting
the current items, then tries the webhook, then falls back to clipboard. -/
def handleManualExport (newId newDate : String) (scriptUrl : String)
    (fetchR : FetchResult) (clipOk : Bool) (s : AppState) : AppState :=
  let newRecord : InvoiceRecord :=
    { id := newId, date := newDate, items := s.items,
      totalItems := s.items.length, status := .Uploaded }
  let s1 := { s with history := newRecord :: s.history }
  if scriptUrl ≠ "" then
    let success := uploadToScript scriptUrl fetchR
    let s2 := { s1 with isProcessing := false }
    if success then
      { s2 with toast := some "Sent to Sheet! (Sorted by name)", view := .DASHBOARD }
    else
      clipboardStep clipOk
        { s2 with toast := some "Auto-upload failed. Switching to manual copy." }
  else
    clipboardStep clipOk s1

/-- A TSV line as the spec describes it: the six fields
vendor, description, inStock, par, order, price joined by tab characters. -/
def tsvLineSpec (r : ExportRow) : String :=
  String.intercalate "\t" [r.vendor, r.description, numToString r.inStock,
    numToString r.par, numToString r.order, numToString r.price]

/-- Frame contract of one `updateOne` application: every field other than
the edited one and `order` keeps its stored value. -/
def framePreserved (fv : FieldVal) (a b : InvoiceItem) : Prop :=
  match fv with
  | .inStock _ => b.id = a.id ∧ b.description = a.description ∧ b.vendor = a.vendor ∧
      b.par = a.par ∧ b.price = a.price
  | .par _ => b.id = a.id ∧ b.description = a.description ∧ b.vendor = a.vendor ∧
      b.inStock = a.inStock ∧ b.price = a.price
  | .order _ => b.id = a.id ∧ b.description = a.description ∧ b.vendor = a.vendor ∧
      b.inStock = a.inStock ∧ b.par = a.par ∧ b.price = a.price
  | .price _ => b.id = a.id ∧ b.description = a.description ∧ b.vendor = a.vendor ∧
      b.inStock = a.inStock ∧ b.par = a.par
  | .description _ => b.id = a.id ∧ b.vendor = a.vendor ∧ b.inStock = a.inStock ∧
      b.par = a.par ∧ b.price = a.price
  | .vendor _ => b.id = a.id ∧ b.description = a.description ∧ b.inStock = a.inStock ∧
      b.par = a.par ∧ b.price = a.price

/-! ## Helper lemmas -/

theorem updateOne_keeps_id (fv : FieldVal) (it : InvoiceItem) :
    (updateOne fv it).id = it.id := by
  cases fv <;> rfl

theorem updateItem_getD_ne (items : List InvoiceItem) (id : String) (fv : FieldVal)
    (i : Nat) (hd : InvoiceItem) (hne : (items.getD i hd).id ≠ id) :
    (updateItem items id fv).getD i hd = items.getD i hd := by
  rw [List.getD_eq_getElem?_getD, updateItem, List.getElem?_map]
  cases h : items[i]? with
  | none => simp [List.getD_eq_getElem?_getD, h]
  | some a =>
    have ha : items.getD i hd = a := by simp [List.getD_eq_getElem?_getD, h]
    rw [ha] at hne ⊢
    simp [hne]

theorem updateItem_getD_eq (items : List InvoiceItem) (id : String) (fv : FieldVal)
    (i : Nat) (hd : InvoiceItem) (heq : (items.getD i hd).id = id) (hlt : i < items.length) :
    (updateItem items id fv).getD i hd = updateOne fv (items.getD i hd) := by
  rw [List.getD_eq_getElem?_getD, updateItem, List.getElem?_map]
  have h : items[i]? = some (items.getD i hd) := by
    rw [List.getD_eq_getElem?_getD, List.getElem?_eq_getElem hlt]
    rfl
  rw [h]
  simp only [Option.map_some', Option.getD_some]
  rw [if_neg (fun hcon => hcon heq)]

theorem updateItem_idem (items : List InvoiceItem) (id : String) (fv : FieldVal)
    (h : ∀ it, updateOne fv (updateOne fv it) = updateOne fv it) :
    updateItem (updateItem items id fv) id fv = updateItem items id fv := by
  simp only [updateItem, List.map_map]
  apply List.map_congr_left
  intro a _
  by_cases hid : a.id = id
  · simp only [Function.comp_apply, hid, ne_eq, not_true_eq_false, if_false,
      updateOne_keeps_id, h]
  · simp [Function.comp, hid]

theorem strStartsWith_iff (p : List Char) : ∀ s : List Char,
    strStartsWith p s = true ↔ ∃ r, s = p ++ r := by
  induction p with
  | nil => intro s; simp [strStartsWith]
  | cons a p ih =>
    intro s
    cases s with
    | nil => simp [strStartsWith]
    | cons b t =>
      simp only [strStartsWith, Bool.and_eq_true, beq_iff_eq, ih t, List.cons_append,
        List.cons.injEq]
      constructor
      · rintro ⟨hab, r, hr⟩; exact ⟨r, hab.symm, hr⟩
      · rintro ⟨r, hab, hr⟩; exact ⟨hab.symm, r, hr⟩

theorem strIncludesAux_iff (p : List Char) : ∀ s : List Char,
    strIncludesAux p s = true ↔ ∃ l r, s = l ++ p ++ r := by
  intro s
  induction s with
  | nil =>
    simp only [strIncludesAux, List.isEmpty_iff]
    constructor
    · rintro rfl; exact ⟨[], [], rfl⟩
    · rintro ⟨l, r, h⟩
      rcases List.append_eq_nil.mp (List.append_eq_nil.mp h.symm).1 with ⟨-, h2⟩
      exact h2
  | cons b t ih =>
    simp only [strIncludesAux, Bool.or_eq_true, strStartsWith_iff, ih]
    constructor
    · rintro (⟨r, hr⟩ | ⟨l, r, hr⟩)
      · exact ⟨[], r, by simp [hr]⟩
      · exact ⟨b :: l, r, by simp [hr]⟩
    · rintro ⟨l, r, hr⟩
      cases l with
      | nil => exact Or.inl ⟨r, by simpa using hr⟩
      | cons x l' =>
        simp only [List.cons_append, List.cons.injEq] at hr
        exact Or.inr ⟨l', r, hr.2⟩

theorem strIncludes_iff (s pat : String) :
    strIncludes s pat = true ↔ ∃ l r, s.data = l ++ pat.data ++ r :=
  strIncludesAux_iff pat.data s.data

theorem tsvLine_eq_spec (r : ExportRow) : tsvLine r = tsvLineSpec r := by
  simp [tsvLine, tsvLineSpec, String.intercalate, String.intercalate.go,
    String.append_assoc]

/-! ## Claims -/

/-- C1 (amended): par resolution. If `parRaw ≠ 0` the normalized par equals
`parRaw` (in particular whenever `parRaw > 0`, as the claim states);
otherwise (`parRaw = 0`) if `orderRaw > 0` then `par = inStock + orderRaw`;
otherwise `par = inStock + 5` when `inStock > 0` and `10` when
`inStock = 0`. The row `inStock 3, parRaw 0, orderRaw 0` normalizes to
`inStock 3, par 8, order 5`. The amendment: the code tests `par === 0`, so
a negative `parRaw` is also kept verbatim rather than falling through to
the `inStock + orderRaw` branch as the claim's "otherwise" required. -/
theorem c1_par_resolution (vendorName id : String) (row : RawItem) :
    (row.column2_par.getD 0 ≠ 0 →
      (normalizeRow vendorName id row).par = row.column2_par.getD 0) ∧
    (row.column2_par.getD 0 = 0 → 0 < row.column3_order.getD 0 →
      (normalizeRow vendorName id row).par =
        row.column1_inStock.getD 0 + row.column3_order.getD 0) ∧
    (row.column2_par.getD 0 = 0 → ¬ 0 < row.column3_order.getD 0 →
      0 < row.column1_inStock.getD 0 →
      (normalizeRow vendorName id row).par = row.column1_inStock.getD 0 + 5) ∧
    (row.column2_par.getD 0 = 0 → ¬ 0 < row.column3_order.getD 0 →
      row.column1_inStock.getD 0 = 0 →
      (normalizeRow vendorName id row).par = 10) ∧
    (normalizeRow "" "item-1" ⟨some "Rice", some 3, some 0, some 0, none⟩).inStock = 3 ∧
    (normalizeRow "" "item-1" ⟨some "Rice", some 3, some 0, some 0, none⟩).par = 8 ∧
    (normalizeRow "" "item-1" ⟨some "Rice", some 3, some 0, some 0, none⟩).order = 5 := by
  refine ⟨?_, ?_, ?_, ?_, ?_, ?_, ?_⟩
  · intro h; simp [normalizeRow, h]
  · intro h1 h2; simp [normalizeRow, h1, h2]
  · intro h1 h2 h3; simp [normalizeRow, h1, h2, h3]
  · intro h1 h2 h3; simp [normalizeRow, h1, h2, h3]
  · with_unfolding_all decide
  · with_unfolding_all decide
  · with_unfolding_all decide

/-- C1 counterexample to the claim as stated: for the row with
`inStock 0, parRaw -1, orderRaw 2` we are in the claim's "otherwise"
branch (`parRaw > 0` is false) with `orderRaw > 0`, so the claim requires
`par = inStock + orderRaw = 2`; the code keeps `par = -1`. -/
theorem c1_counterexample :
    ¬ (0 : ℚ) < ((⟨some "X", some 0, some (-1), some 2, none⟩ : RawItem).column2_par.getD 0) ∧
    (0 : ℚ) < ((⟨some "X", some 0, some (-1), some 2, none⟩ : RawItem).column3_order.getD 0) ∧
    (normalizeRow "" "" ⟨some "X", some 0, some (-1), some 2, none⟩).par = -1 ∧
    (normalizeRow "" "" ⟨some "X", some 0, some (-1), some 2, none⟩).par ≠
      ((⟨some "X", some 0, some (-1), some 2, none⟩ : RawItem).column1_inStock.getD 0 +
        (⟨some "X", some 0, some (-1), some 2, none⟩ : RawItem).column3_order.getD 0) := by
  with_unfolding_all decide

/-- C1 witness: the default-buffer branch applied to the Rice row. -/
theorem c1_par_resolution_witness :
    (normalizeRow "" "" ⟨some "Rice", some 3, some 0, some 0, none⟩).par =
      (⟨some "Rice", some 3, some 0, some 0, none⟩ : RawItem).column1_inStock.getD 0 + 5 :=
  (c1_par_resolution "" "" ⟨some "Rice", some 3, some 0, some 0, none⟩).2.2.1
    rfl (by with_unfolding_all decide) (by with_unfolding_all decide)

/-- C2 (amended): order resolution. If `orderRaw > 0` the normalized order
equals `orderRaw` verbatim (even when `par - inStock` differs); otherwise
(`orderRaw = 0`), when the resolved par is positive the order is
`max(0, par - inStock)`, and when the resolved par is not positive
(possible only for a negative handwritten par) the order stays `0`. The
amendment: the code guards the recomputation with `par > 0`, which the
claim's unconditional `max(0, par - inStock)` misses. -/
theorem c2_order_resolution (vendorName id : String) (row : RawItem) :
    (0 < row.column3_order.getD 0 →
      (normalizeRow vendorName id row).order = row.column3_order.getD 0) ∧
    (row.column3_order.getD 0 = 0 → 0 < (normalizeRow vendorName id row).par →
      (normalizeRow vendorName id row).order =
        max 0 ((normalizeRow vendorName id row).par - row.column1_inStock.getD 0)) ∧
    (row.column3_order.getD 0 = 0 → ¬ 0 < (normalizeRow vendorName id row).par →
      (normalizeRow vendorName id row).order = 0) := by
  refine ⟨?_, ?_, ?_⟩
  · intro h; simp [normalizeRow, h.ne']
  · intro h1 h2; simp only [normalizeRow] at h2 ⊢; simp [h1] at h2 ⊢; simp [h2]
  · intro h1 h2; simp only [normalizeRow] at h2 ⊢; simp [h1] at h2 ⊢; simp [h2]

/-- C2 counterexample to the claim as stated: for the row with
`inStock -10, parRaw -3, orderRaw 0` the claim requires
`order = max(0, par - inStock) = max(0, -3 - (-10)) = 7`, but the code's
`par > 0` guard fails and the order stays `0`. -/
theorem c2_counterexample :
    (⟨some "X", some (-10), some (-3), some 0, none⟩ : RawItem).column3_order.getD 0 = 0 ∧
    (normalizeRow "" "" ⟨some "X", some (-10), some (-3), some 0, none⟩).order ≠
      max 0 ((normalizeRow "" "" ⟨some "X", some (-10), some (-3), some 0, none⟩).par -
        (normalizeRow "" "" ⟨some "X", some (-10), some (-3), some 0, none⟩).inStock) := by
  with_unfolding_all decide

/-- C2 witness: a handwritten order of 2 is kept verbatim although
`par - inStock = 9 - 1 = 8` differs from it. -/
theorem c2_order_resolution_witness :
    (normalizeRow "" "" ⟨some "X", some 1, some 9, some 2, none⟩).order =
      (⟨some "X", some 1, some 9, some 2, none⟩ : RawItem).column3_order.getD 0 :=
  (c2_order_resolution "" "" ⟨some "X", some 1, some 9, some 2, none⟩).1
    (by with_unfolding_all decide)

/-- C3: the Review State edit rule. For an item whose id matches, an
`inStock` edit sets `order = max(0, par_stored - value)` and stores the
new `inStock`; a `par` edit sets `order = max(0, value - inStock_stored)`
and stores the new `par`; an `order` edit sets `order` to the value and
leaves `par` and `inStock` alone; and the same `inStock` or `par` update
applied twice equals applying it once. -/
theorem c3_update_edit_rule (items : List InvoiceItem) (id : String) (v : ℚ) :
    (∀ (i : Nat) (hd : InvoiceItem), i < items.length → (items.getD i hd).id = id →
      ((updateItem items id (.inStock v)).getD i hd).order =
        max 0 ((items.getD i hd).par - v) ∧
      ((updateItem items id (.inStock v)).getD i hd).inStock = v) ∧
    (∀ (i : Nat) (hd : InvoiceItem), i < items.length → (items.getD i hd).id = id →
      ((updateItem items id (.par v)).getD i hd).order =
        max 0 (v - (items.getD i hd).inStock) ∧
      ((updateItem items id (.par v)).getD i hd).par = v) ∧
    (∀ (i : Nat) (hd : InvoiceItem), i < items.length → (items.getD i hd).id = id →
      ((updateItem items id (.order v)).getD i hd).order = v ∧
      ((updateItem items id (.order v)).getD i hd).par = (items.getD i hd).par ∧
      ((updateItem items id (.order v)).getD i hd).inStock = (items.getD i hd).inStock) ∧
    updateItem (updateItem items id (.inStock v)) id (.inStock v) =
      updateItem items id (.inStock v) ∧
    updateItem (updateItem items id (.par v)) id (.par v) =
      updateItem items id (.par v) := by
  refine ⟨?_, ?_, ?_, ?_, ?_⟩
  · intro i hd hlt heq
    rw [updateItem_getD_eq items id _ i hd heq hlt]
    exact ⟨rfl, rfl⟩
  · intro i hd hlt heq
    rw [updateItem_getD_eq items id _ i hd heq hlt]
    exact ⟨rfl, rfl⟩
  · intro i hd hlt heq
    rw [updateItem_getD_eq items id _ i hd heq hlt]
    exact ⟨rfl, rfl, rfl⟩
  · exact updateItem_idem items id _ (fun it => by simp [updateOne])
  · exact updateItem_idem items id _ (fun it => by simp [updateOne])

/-- C3 witness: editing `inStock` to 4 on a matching item with stored
`par = 9` recomputes its order. -/
theorem c3_update_edit_rule_witness :
    ((updateItem [⟨"a", "d", "v", 3, 9, 6, 0⟩] "a" (FieldVal.inStock 4)).getD 0
        ⟨"a", "d", "v", 3, 9, 6, 0⟩).order =
      max 0 ((([⟨"a", "d", "v", 3, 9, 6, 0⟩] : List InvoiceItem).getD 0
        ⟨"a", "d", "v", 3, 9, 6, 0⟩).par - 4) ∧
    ((updateItem [⟨"a", "d", "v", 3, 9, 6, 0⟩] "a" (FieldVal.inStock 4)).getD 0
        ⟨"a", "d", "v", 3, 9, 6, 0⟩).inStock = 4 :=
  (c3_update_edit_rule [⟨"a", "d", "v", 3, 9, 6, 0⟩] "a" 4).1 0
    ⟨"a", "d", "v", 3, 9, 6, 0⟩ (by decide) rfl

/-- C4: the webhook success criterion. With a configured script URL, the
upload is reported successful if and only if the response body contains
the substring `"Success"`; `"Success: 0 rows"` counts as success,
`"Error: locked"` as failure, and a transport exception as failure. -/
theorem c4_webhook_success (url : String) (hurl : url ≠ "") :
    (∀ t : String, uploadToScript url (.ok t) = true ↔
      ∃ l r, t.data = l ++ "Success".data ++ r) ∧
    uploadToScript url (.ok "Success: 0 rows") = true ∧
    uploadToScript url (.ok "Error: locked") = false ∧
    uploadToScript url .exn = false := by
  refine ⟨?_, ?_, ?_, ?_⟩
  · intro t
    simp [uploadToScript, hurl]
    simpa using strIncludes_iff t "Success"
  · simp only [uploadToScript, hurl]
    simp only [if_false]
    decide
  · simp only [uploadToScript, hurl]
    simp only [if_false]
    decide
  · simp [uploadToScript, hurl]

/-- C4 witness: the success classification at a concrete URL and body. -/
theorem c4_webhook_success_witness :
    uploadToScript "https://script.example/exec" (.ok "Success: 0 rows") = true :=
  (c4_webhook_success "https://script.example/exec" (by decide)).2.1

/-- C5: clipboard TSV serialization. The exported text is the
case-insensitively-sorted copy of the collection rendered one line per
item (fields vendor, description, inStock, par, order, price joined by
tabs) and joined by newlines with no header; the sorted copy is a
permutation of the collection, sorted by the case-insensitive description
order; and the stated single item serializes to exactly
`"V\t D\t 1\t 5\t 4\t 2.5"` (without the spaces). -/
theorem c5_clipboard_tsv (items : List InvoiceItem) :
    copyTsvText items =
      String.intercalate "\n"
        ((sortByDescription items).map fun i => tsvLineSpec (toExportRow i)) ∧
    List.Perm (sortByDescription items) items ∧
    List.Sorted ciRel (sortByDescription items) ∧
    copyTsvText [⟨"id1", "D", "V", 1, 5, 4, 2.5⟩] = "V\tD\t1\t5\t4\t2.5" := by
  refine ⟨?_, ?_, ?_, ?_⟩
  · simp only [copyTsvText, getSortedExportData, List.map_map]
    congr 1
  · exact List.perm_insertionSort ciRel items
  · exact List.sorted_insertionSort ciRel items
  · with_unfolding_all decide

/-- C6: export does not mutate Review State. The whole manual-export
handler, on every path (webhook success, webhook failure with clipboard
fallback, clipboard only), leaves the live items collection unchanged:
both sinks sort their own copies. -/
theorem c6_export_frame (newId newDate scriptUrl : String) (fetchR : FetchResult)
    (clipOk : Bool) (s : AppState) :
    (handleManualExport newId newDate scriptUrl fetchR clipOk s).items = s.items := by
  simp only [handleManualExport, clipboardStep]
  repeat' split
  all_goals rfl

/-- C7: every completed export prepends exactly one record to the history,
with status `Uploaded`, items a snapshot of the current collection and
`totalItems` its length, regardless of which delivery path succeeds;
the rest of the history is kept unchanged below it (newest first). -/
theorem c7_export_history (newId newDate scriptUrl : String) (fetchR : FetchResult)
    (clipOk : Bool) (s : AppState) :
    (handleManualExport newId newDate scriptUrl fetchR clipOk s).history =
      { id := newId, date := newDate, items := s.items,
        totalItems := s.items.length, status := .Uploaded } :: s.history := by
  simp only [handleManualExport, clipboardStep]
  repeat' split
  all_goals rfl

/-- C8: Model Gateway result handling. A bare list and an object carrying
an `items` list are both accepted (yielding one normalized item per raw
row), an unparsable response shape yields an empty list, absent text and
the falsy empty-string text yield an empty list before parsing, the call
exception and the JSON parse exception both yield the single opaque
extraction-failure error, and every error the function can return is that
one message, so callers cannot distinguish the causes; no partial item
list is returned on failure. The parse-outcome conjuncts carry the
`t ≠ ""` context in which the code reaches `JSON.parse` at all. -/
theorem c8_gateway_errors (idGen : Nat → String) :
    (∀ (t : String) (items : List RawItem), t ≠ "" → ∃ out,
      extractInvoiceData idGen (.response (some t) (.parsed (.jarr items))) = .ok out ∧
      out.length = items.length) ∧
    (∀ (t : String) (vn : Option String) (items : List RawItem), t ≠ "" → ∃ out,
      extractInvoiceData idGen (.response (some t) (.parsed (.jobj vn (some items)))) =
        .ok out ∧ out.length = items.length) ∧
    (∀ (t : String) (vn : Option String), t ≠ "" →
      extractInvoiceData idGen (.response (some t) (.parsed (.jobj vn none))) = .ok []) ∧
    (∀ t : String, t ≠ "" →
      extractInvoiceData idGen (.response (some t) (.parsed .jprim)) = .ok []) ∧
    (∀ p : ParseOutcome, extractInvoiceData idGen (.response none p) = .ok []) ∧
    (∀ p : ParseOutcome, extractInvoiceData idGen (.response (some "") p) = .ok []) ∧
    extractInvoiceData idGen .callExn = .error extractFailMessage ∧
    (∀ t : String, t ≠ "" →
      extractInvoiceData idGen (.response (some t) .malformed) = .error extractFailMessage) ∧
    (∀ (o : ModelOutcome) (e : String),
      extractInvoiceData idGen o = .error e → e = extractFailMessage) := by
  refine ⟨?_, ?_, ?_, ?_, ?_, ?_, rfl, ?_, ?_⟩
  · intro t items ht
    simp only [extractInvoiceData, if_neg ht]
    exact ⟨_, rfl, by simp⟩
  · intro t vn items ht
    simp only [extractInvoiceData, if_neg ht]
    exact ⟨_, rfl, by simp⟩
  · intro t vn ht
    simp only [extractInvoiceData, if_neg ht]
    rfl
  · intro t ht
    simp only [extractInvoiceData, if_neg ht]
  · intro p; rfl
  · intro p; rfl
  · intro t ht
    simp only [extractInvoiceData, if_neg ht]
  · intro o e h
    cases o with
    | callExn => injection h with h2; exact h2.symm
    | response text p =>
      cases text with
      | none => simp [extractInvoiceData] at h
      | some t =>
        by_cases ht : t = ""
        · subst ht; simp [extractInvoiceData] at h
        · cases p with
          | malformed =>
            simp only [extractInvoiceData, if_neg ht] at h
            injection h with h2; exact h2.symm
          | parsed v =>
            cases v with
            | jnull =>
              simp only [extractInvoiceData, if_neg ht] at h
              injection h with h2; exact h2.symm
            | jarr items => simp [extractInvoiceData, ht] at h
            | jobj vn its => simp [extractInvoiceData, ht] at h
            | jprim => simp [extractInvoiceData, ht] at h

/-- C8 witness: a malformed parse of nonempty text carries exactly the
opaque message, and a primitive JSON value yields the empty list. -/
theorem c8_gateway_errors_witness :
    extractFailMessage = extractFailMessage ∧
    extractInvoiceData (fun _ => "id-0") (.response (some "5") (.parsed .jprim)) = .ok [] :=
  ⟨(c8_gateway_errors (fun _ => "id-0")).2.2.2.2.2.2.2.2
      (.response (some "oops") .malformed) extractFailMessage rfl,
   (c8_gateway_errors (fun _ => "id-0")).2.2.2.1 "5" (by decide)⟩

/-- C9: implicit frame property of `updateItem`. The length is preserved,
a position whose item's id differs from the edited id is unchanged, a
matching position becomes exactly `updateOne` of the old item, `updateOne`
touches at most the named field and `order`, and an id present nowhere
leaves the collection unchanged. -/
theorem c9_update_frame (items : List InvoiceItem) (id : String) (fv : FieldVal) :
    (updateItem items id fv).length = items.length ∧
    (∀ (i : Nat) (hd : InvoiceItem), (items.getD i hd).id ≠ id →
      (updateItem items id fv).getD i hd = items.getD i hd) ∧
    (∀ (i : Nat) (hd : InvoiceItem), i < items.length → (items.getD i hd).id = id →
      (updateItem items id fv).getD i hd = updateOne fv (items.getD i hd)) ∧
    (∀ it : InvoiceItem, framePreserved fv it (updateOne fv it)) ∧
    ((∀ it ∈ items, it.id ≠ id) → updateItem items id fv = items) := by
  refine ⟨by simp [updateItem], ?_, ?_, ?_, ?_⟩
  · intro i hd hne; exact updateItem_getD_ne items id fv i hd hne
  · intro i hd hlt heq; exact updateItem_getD_eq items id fv i hd heq hlt
  · intro it; cases fv <;> simp [framePreserved, updateOne]
  · intro hall
    simp only [updateItem]
    conv_rhs => rw [← List.map_id items]
    apply List.map_congr_left
    intro a ha
    simp [hall a ha]

/-- C9 witness: an update against an id present nowhere is the identity. -/
theorem c9_update_frame_witness :
    updateItem [⟨"a", "d", "v", 3, 9, 6, 0⟩] "zz" (FieldVal.order 7) =
      [⟨"a", "d", "v", 3, 9, 6, 0⟩] :=
  (c9_update_frame [⟨"a", "d", "v", 3, 9, 6, 0⟩] "zz" (FieldVal.order 7)).2.2.2.2
    (by intro it hmem; rw [List.mem_singleton] at hmem; subst hmem; decide)

/-- C10: the empty-collection export edge case. The TSV serialization of
an empty collection is the empty string (no line, no trailing newline),
the webhook body for an empty collection is exactly the JSON text
with an empty items array, and the sorted export data is the empty list,
so neither path needs a non-empty collection. -/
theorem c10_empty_export :
    copyTsvText [] = "" ∧
    uploadBodySent [] = "\x7b\"items\":[]\x7d" ∧
    getSortedExportData [] = [] := by
  refine ⟨?_, ?_, ?_⟩ <;> with_unfolding_all decide

end OrderSheet
